import Mathlib

/-!
Shallow embedding of `moda-plans-csv.py`.

The Python script is a three-stage pipeline: a locality resolver
(`set_locality`), a household normalizer (`People` with `add` and
`covered`), a page fetch with a regular-expression extraction of the
embedded `PlansInitialData` JSON literal (`get_plans`), and a CSV
flattener (`get_plans_csv`).  Network calls are modelled by passing the
fetched response bodies as explicit arguments; Python exceptions are
modelled with `Except`/`Option`; Python dicts are modelled as
insertion-ordered association lists, matching dict iteration order.
-/

/-! ## Date normalization

The script delegates date parsing to the external `dateutil` library
(`parser.parse(date).strftime("%m/%d/%Y")`), which is not part of this
repository.  The parser below is therefore modelled from the spec. -/

/-- Digit character for a value below ten (code points 48-57). -/
def digitChar (n : Nat) : Char := Char.ofNat (48 + n % 10)

/-- Numeric value of a decimal digit character, via its code point. -/
def digitVal (c : Char) : Option Nat :=
  if 48 ≤ c.toNat ∧ c.toNat ≤ 57 then some (c.toNat - 48) else none

/-- Whether a character is a decimal digit. -/
def isDigitChar (c : Char) : Bool := (digitVal c).isSome

/-- Value of a list of decimal digit characters, most significant first. -/
def natOfDigits (cs : List Char) : Nat :=
  cs.foldl (fun a c => 10 * a + (digitVal c).getD 0) 0

/-- Split a character list into its maximal leading run of digits and the
rest. -/
def spanDigits : List Char → List Char × List Char
  | [] => ([], [])
  | c :: rest =>
    if isDigitChar c then (c :: (spanDigits rest).1, (spanDigits rest).2)
    else ([], c :: rest)

/-- Number of days in a month of a given year (Gregorian rules). -/
def daysInMonth (m y : Nat) : Nat :=
  if m = 2 then (if (y % 4 = 0 && !(y % 100 = 0)) || y % 400 = 0 then 29 else 28)
  else if m = 4 || m = 6 || m = 9 || m = 11 then 30 else 31

/-- A calendar date as month, day, year. -/
structure SimpleDate where
  month : Nat
  day : Nat
  year : Nat
deriving DecidableEq

/-- The dates representable in the canonical `MM/DD/YYYY` textual form. -/
def ValidDate (d : SimpleDate) : Prop :=
  1 ≤ d.month ∧ d.month ≤ 12 ∧ 1 ≤ d.day ∧ d.day ≤ daysInMonth d.month d.year ∧
    d.year ≤ 9999

instance (d : SimpleDate) : Decidable (ValidDate d) := by
  unfold ValidDate; infer_instance

/-- Modelled from the spec: the script parses dates of birth with the
external `dateutil` flexible parser, which is not part of this repository.
Following the spec (slash-separated month, day and four-digit year, with
one- or two-digit month and day, validated against the calendar), this
model accepts `M/D/YYYY` forms and rejects everything else. -/
def parse_date_chars (cs : List Char) : Option SimpleDate :=
  match (spanDigits cs).2 with
  | '/' :: r1 =>
    match (spanDigits r1).2 with
    | '/' :: r2 =>
      if 1 ≤ (spanDigits cs).1.length ∧ (spanDigits cs).1.length ≤ 2 ∧
          1 ≤ (spanDigits r1).1.length ∧ (spanDigits r1).1.length ≤ 2 ∧
          r2.length = 4 ∧ r2.all isDigitChar = true then
        if 1 ≤ natOfDigits (spanDigits cs).1 ∧ natOfDigits (spanDigits cs).1 ≤ 12 ∧
            1 ≤ natOfDigits (spanDigits r1).1 ∧
            natOfDigits (spanDigits r1).1 ≤
              daysInMonth (natOfDigits (spanDigits cs).1) (natOfDigits r2) then
          some ⟨natOfDigits (spanDigits cs).1, natOfDigits (spanDigits r1).1,
                natOfDigits r2⟩
        else none
      else none
    | _ => none
  | _ => none

/-- Two-digit zero-padded rendering (`%m`, `%d`). -/
def pad2 (n : Nat) : List Char := [digitChar (n / 10 % 10), digitChar (n % 10)]

/-- Four-digit zero-padded rendering of the year (`%Y` on a four-digit
year). -/
def pad4 (n : Nat) : List Char :=
  [digitChar (n / 1000 % 10), digitChar (n / 100 % 10),
   digitChar (n / 10 % 10), digitChar (n % 10)]

/-- Canonical `MM/DD/YYYY` rendering, as in
`strftime("%m/%d/%Y")`. -/
def format_date_chars (d : SimpleDate) : List Char :=
  pad2 d.month ++ '/' :: pad2 d.day ++ '/' :: pad4 d.year

/-- Modelled from the spec: `normalize_date` in the script is
`parser.parse(date).strftime("%m/%d/%Y")` with `dateutil`'s parser, an
external library; the parsing step is modelled by `parse_date_chars`.
Returns `none` where the Python code raises a parse error. -/
def normalize_date (s : String) : Option String :=
  (parse_date_chars s.toList).map (fun d => String.mk (format_date_chars d))

/-! ## The household model (`class People`) -/

/-- One covered person, as built by `People.add`: the Python dict
`dict(FirstName=..., DateOfBirth=..., PersonId=None, Type=...)`.  The
field `type` models the Python key `Type` (insured = 1, spouse = 2,
child = 3). -/
structure Person where
  FirstName : String
  DateOfBirth : String
  PersonId : Option Nat
  type : Nat
deriving DecidableEq

/-- The `People` class: up to one insured, up to one spouse, an optional
list of children (`None` until the first child is added). -/
structure People where
  insured : Option Person
  spouse : Option Person
  children : Option (List Person)
deriving DecidableEq

/-- The empty household (a fresh `People()` instance). -/
def emptyPeople : People := { insured := none, spouse := none, children := none }

/-- `People.add`: validates the three-token entry, normalizes the date of
birth, then stores the person under the role selected by the flag.  A
second `--self` or `--spouse` overwrites the stored attribute; a
`--child` appends. -/
def People.add (p : People) (data : List String) : Except String People :=
  match data with
  | [flag, name, dob] =>
    match normalize_date dob with
    | none => .error "Unparseable date"
    | some nd =>
      if flag = "--self" then
        .ok { p with insured := some ⟨name, nd, none, 1⟩ }
      else if flag = "--spouse" then
        .ok { p with spouse := some ⟨name, nd, none, 2⟩ }
      else if flag = "--child" then
        .ok { p with children := some (p.children.getD [] ++ [⟨name, nd, none, 3⟩]) }
      else .error ("Unknown person type: " ++ flag)
  | _ => .error "Invalid person entry"

/-- The payload built by `People.covered`: the Python dict `ret` with the
optional `OnlyChildCoverage` key and the `CoveredPersons` array. -/
structure CoveredPayload where
  OnlyChildCoverage : Option Bool
  CoveredPersons : List Person
deriving DecidableEq

/-- `People.covered`: validation and assembly of the covered-persons
payload, mirroring lines 70-91 of the script. -/
def People.covered (p : People) : Except String CoveredPayload :=
  if p.insured.isNone && p.spouse.isSome then
    .error "Must have insured set when spouse is set."
  else if p.insured.isNone && p.spouse.isNone && p.children.isNone then
    .error "Must have at least either insured set or a child set."
  else
    .ok { OnlyChildCoverage :=
            if p.insured.isNone && p.spouse.isNone then some true else none,
          CoveredPersons :=
            p.insured.toList ++ p.spouse.toList ++ p.children.getD [] }

/-- The `People` states reachable from a fresh instance by successful
`add` calls. -/
inductive Reachable : People → Prop where
  | base : Reachable emptyPeople
  | step (p : People) (d : List String) (q : People) :
      Reachable p → People.add p d = .ok q → Reachable q

/-! ## The locality resolver (`set_locality`) -/

/-- One match in the locality-lookup response's `zipCodes` array. -/
structure ZipEntry where
  Zip : String
  County : String
  State : String
deriving DecidableEq

/-- The locality-lookup response body (`res.json()` of the LOCALITY
call). -/
structure LocalityResp where
  zipCodes : List ZipEntry
deriving DecidableEq

/-- The service-area check response body (`res.json()` of the TRIAGE
call). -/
structure TriageResp where
  HasMedicalServiceArea : Bool
deriving DecidableEq

/-- `set_locality`, with the two network responses passed explicitly: the
locality response, and the triage response as a function of the
zip/county/state posted to it.  `locality_res["zipCodes"][0]` on an empty
match list raises `IndexError` in Python, modelled as the corresponding
`Except.error`. -/
def set_locality (resp : LocalityResp) (triage : String → String → String → TriageResp) :
    Except String (String × String × String) :=
  match resp.zipCodes.head? with
  | none => .error "IndexError: list index out of range"
  | some loc =>
    if (triage loc.Zip loc.County loc.State).HasMedicalServiceArea then
      .ok (loc.Zip, loc.County, loc.State)
    else
      .error ("Medical plans not available in " ++ loc.Zip ++ ", " ++
        loc.County ++ ", " ++ loc.State)

/-! ## The `PlansInitialData` extraction (`get_plans`)

The script compiles `PlansInitialData\s*=\s*(\S+.*);` and calls
`plancardre.search(res.text, re.MULTILINE)`.  `Pattern.search`'s second
positional parameter is the start offset `pos`, not a flags argument, so
`re.MULTILINE` (value 8) makes the scan start at character offset 8. -/

/-- Python `\s` whitespace. -/
def pyWhitespace (c : Char) : Bool :=
  c = ' ' || c = '\t' || c = '\n' || c = '\r' || c = '\x0b' || c = '\x0c'

/-- Index of the last `;` in a character list, if any. -/
def lastSemiIdx : List Char → Option Nat
  | [] => none
  | c :: rest =>
    match lastSemiIdx rest with
    | some k => some (k + 1)
    | none => if c = ';' then some 0 else none

/-- Whether the regex `PlansInitialData\s*=\s*(\S+.*);` matches at
offset `i` of the text, and the captured group if so.  The literal is 16
characters; `\s*` skips greedily; the greedy `(\S+.*);` captures from the
first non-space character up to the last `;` on that line (`.` does not
match a newline), requiring a nonempty group. -/
def matchAt (cs : List Char) (i : Nat) : Option (List Char) :=
  let t := cs.drop i
  if ("PlansInitialData".toList).isPrefixOf t then
    match (t.drop 16).dropWhile pyWhitespace with
    | '=' :: r2 =>
      let rest := r2.dropWhile pyWhitespace
      let line := rest.takeWhile (fun c => !(c = '\n'))
      match lastSemiIdx line with
      | some k => if 1 ≤ k then some (line.take k) else none
      | none => none
    | _ => none
  else none

/-- Scan for the leftmost match at offsets `i, i+1, ...`, with explicit
fuel. -/
def searchFrom (cs : List Char) : Nat → Nat → Option (List Char)
  | _, 0 => none
  | i, fuel + 1 =>
    match matchAt cs i with
    | some g => some g
    | none => searchFrom cs (i + 1) fuel

/-- `get_plans`, given the fetched page body: the
`plancardre.search(res.text, re.MULTILINE)` call scans from offset 8
(`re.MULTILINE` is passed as the `pos` parameter), returns the first
match's captured group (the JSON text handed to `json.loads`), and
raises when there is no match. -/
def get_plans (body : String) : Except String String :=
  match searchFrom body.toList 8 (body.toList.length + 1) with
  | some g => .ok (String.mk g)
  | none => .error "Could not find PlansInitialData in output."

/-! ## The CSV flattener (`get_plans_csv`) -/

/-- A JSON-ish attribute value of a plan record. -/
inductive Val where
  | str : String → Val
  | num : Int → Val
deriving DecidableEq

/-- One entry of the `Results` array: the nested `Plan` dict (an
insertion-ordered open mapping) and the sibling `Rate`. -/
structure PlanResult where
  Plan : List (String × Val)
  Rate : Val
deriving DecidableEq

/-- Python dict subscript `m[k]` as an option (first matching key). -/
def pyLookup {β : Type} (k : String) : List (String × β) → Option β
  | [] => none
  | (k2, v) :: rest => if k2 = k then some v else pyLookup k rest

/-- Python dict assignment `m[k] = v`: update in place if present, else
append. -/
def dictInsert {β : Type} : List (String × β) → String → β → List (String × β)
  | [], k, v => [(k, v)]
  | (k2, v2) :: rest, k, v =>
    if k2 = k then (k, v) :: rest else (k2, v2) :: dictInsert rest k v

/-- Column discovery of `get_plans_csv` (lines 146-156): starting from
`cols = dict(Name=0, Rate=1)` and header `["Name", "Rate"]`, walk the
first plan's keys in order, skip `Name`, and assign each remaining key
the next column index. -/
def buildColsAux (plan : List (String × Val)) (cols : List (String × Nat))
    (hdr : List String) (i : Nat) : List (String × Nat) × List String :=
  match plan with
  | [] => (cols, hdr)
  | (k, _) :: rest =>
    if k = "Name" then buildColsAux rest cols hdr i
    else buildColsAux rest (dictInsert cols k i) (hdr ++ [k]) (i + 1)

/-- Column set and header discovered from the first plan record. -/
def buildCols (plan : List (String × Val)) : List (String × Nat) × List String :=
  buildColsAux plan [("Name", 0), ("Rate", 1)] ["Name", "Rate"] 2

/-- The key loop of row emission (lines 164-170).  For each non-`Name`
key the script runs `row[cols[key]] = plan[key]` inside `try`; when `key`
is absent from `cols`, the lookup raises `KeyError`, and the bare
`except` handler then evaluates `cols[key]` again inside its `print`
call, re-raising `KeyError` and aborting the run — modelled as the
`.error` branch.  (When the index is present but out of range, the
handler's `print` succeeds and the row write is skipped; `List.set` being
a no-op out of range models that net effect.) -/
def fillKeys (cols : List (String × Nat)) :
    List (String × Val) → List (Option Val) → Except String (List (Option Val))
  | [], row => .ok row
  | (k, v) :: rest, row =>
    if k = "Name" then fillKeys cols rest row
    else
      match pyLookup k cols with
      | some i => fillKeys cols rest (row.set i (some v))
      | none => .error ("KeyError: " ++ k)

/-- Emission of one data row (lines 157-171): a row of `len(cols)` empty
cells; the plan's `Name` (when present) at the running index, then the
result's `Rate` at the next index, then the key loop. -/
def emitRow (cols : List (String × Nat)) (res : PlanResult) :
    Except String (List (Option Val)) :=
  let row := List.replicate cols.length (none : Option Val)
  match pyLookup "Name" res.Plan with
  | some v => fillKeys cols res.Plan ((row.set 0 (some v)).set 1 (some res.Rate))
  | none => fillKeys cols res.Plan (row.set 0 (some res.Rate))

/-- Emit data rows in order until the first uncaught exception; returns
the rows actually written and the error, if any, that aborted the run. -/
def runRows (cols : List (String × Nat)) :
    List PlanResult → List (List (Option Val)) × Option String
  | [] => ([], none)
  | r :: rest =>
    match emitRow cols r with
    | .ok row => (row :: (runRows cols rest).1, (runRows cols rest).2)
    | .error e => ([], some e)

/-- The CSV output observed on the sink: the header row (absent when
`Results` is empty), the data rows written before any abort, and the
error that aborted the run, if any. -/
structure CsvOut where
  header : Option (List String)
  rows : List (List (Option Val))
  err : Option String
deriving DecidableEq

/-- `get_plans_csv`'s flattening, given the parsed `Results` array: the
column set is discovered from the first record, the header is written,
then every record (including the first) is emitted as a data row. -/
def get_plans_csv (results : List PlanResult) : CsvOut :=
  match results with
  | [] => ⟨none, [], none⟩
  | r :: rest =>
    ⟨some (buildCols r.Plan).2, (runRows (buildCols r.Plan).1 (r :: rest)).1,
     (runRows (buildCols r.Plan).1 (r :: rest)).2⟩

/-- Classification of the column indices produced by `buildCols`: `Name`
is at 0, `Rate` at 1, every key taken from the plan is at 2 or later. -/
def ColP (k : String) (v : Nat) : Prop :=
  (k = "Name" ∧ v = 0) ∨ (k = "Rate" ∧ v = 1) ∨ 2 ≤ v

/-! ## The command-line person loop (`__main__`, lines 188-198) -/

/-- The three person flags recognized by the argument loop. -/
def personFlags : List String := ["--self", "--spouse", "--child"]

/-- State of the argument loop: the household built so far and the
person entry being accumulated. -/
structure LoopState where
  ppl : People
  person : Option (List String)
deriving DecidableEq

/-- One iteration of the argument loop: flush a complete three-token
entry, then either start a new entry on a flag, append the token to the
pending entry, or silently drop the token. -/
def mainStep (st : LoopState) (arg : String) : Except String LoopState :=
  match st.person with
  | some buf =>
    if buf.length = 3 then
      match People.add st.ppl buf with
      | .error e => .error e
      | .ok p =>
        if arg ∈ personFlags then .ok ⟨p, some [arg]⟩ else .ok ⟨p, none⟩
    else .ok ⟨st.ppl, some (buf ++ [arg])⟩
  | none =>
    if arg ∈ personFlags then .ok ⟨st.ppl, some [arg]⟩ else .ok st

/-- The argument loop over `sys.argv[2:]`. -/
def mainLoop (args : List String) : Except String LoopState :=
  args.foldlM mainStep ⟨emptyPeople, none⟩

/-- The whole person-parsing phase of `__main__`: run the loop, then
flush the trailing entry only when it has exactly three tokens. -/
def parse_people (args : List String) : Except String People :=
  match mainLoop args with
  | .error e => .error e
  | .ok st =>
    match st.person with
    | some buf => if buf.length = 3 then People.add st.ppl buf else .ok st.ppl
    | none => .ok st.ppl

/-! ## Helper lemmas -/

lemma covered_ok_payload (p : People) (r : CoveredPayload)
    (h : People.covered p = .ok r) :
    r.CoveredPersons = p.insured.toList ++ p.spouse.toList ++ p.children.getD [] ∧
    r.OnlyChildCoverage =
      (if p.insured.isNone && p.spouse.isNone then some true else none) := by
  unfold People.covered at h
  split_ifs at h with h1 h2 h3
  · injection h with h4
    subst h4
    exact ⟨rfl, by simp [h3]⟩
  · injection h with h4
    subst h4
    exact ⟨rfl, by simp [h3]⟩

lemma pyLookup_none_not_mem {β : Type} (k : String) (l : List (String × β))
    (h : pyLookup k l = none) : ∀ v, (k, v) ∉ l := by
  induction l with
  | nil => simp
  | cons e rest ih =>
    obtain ⟨k2, v2⟩ := e
    intro v hv
    unfold pyLookup at h
    by_cases he : k2 = k
    · rw [if_pos he] at h; cases h
    · rw [if_neg he] at h
      rcases List.mem_cons.mp hv with h1 | h1
      · exact he (congrArg Prod.fst h1.symm)
      · exact ih h v h1

lemma pyLookup_dictInsert {β : Type} (m : List (String × β)) (k t : String) (v : β) :
    pyLookup t (dictInsert m k v) = if k = t then some v else pyLookup t m := by
  induction m with
  | nil => simp [dictInsert, pyLookup]
  | cons e rest ih =>
    obtain ⟨k2, v2⟩ := e
    by_cases hk : k2 = k
    · subst hk
      by_cases ht : k2 = t <;> simp [dictInsert, pyLookup, ht]
    · by_cases ht : k2 = t
      · subst ht
        have hkt : ¬(k = k2) := fun h2 => hk h2.symm
        simp [dictInsert, pyLookup, hk, hkt]
      · simp [dictInsert, pyLookup, hk, ht, ih]

lemma dictInsert_length_ge {β : Type} (m : List (String × β)) (k : String) (v : β) :
    m.length ≤ (dictInsert m k v).length := by
  induction m with
  | nil => simp [dictInsert]
  | cons e rest ih =>
    obtain ⟨k2, v2⟩ := e
    unfold dictInsert
    split_ifs with hk
    · simp
    · simpa using ih

lemma buildColsAux_length (plan : List (String × Val)) :
    ∀ cols hdr i, cols.length ≤ (buildColsAux plan cols hdr i).1.length := by
  induction plan with
  | nil => intro cols hdr i; simp [buildColsAux]
  | cons e rest ih =>
    intro cols hdr i
    obtain ⟨k, v⟩ := e
    unfold buildColsAux
    split_ifs with hk
    · exact ih cols hdr i
    · exact le_trans (dictInsert_length_ge cols k i) (ih _ _ _)

lemma buildCols_length (plan : List (String × Val)) : 2 ≤ (buildCols plan).1.length := by
  simpa using buildColsAux_length plan [("Name", 0), ("Rate", 1)] ["Name", "Rate"] 2

lemma buildColsAux_lookup (plan : List (String × Val)) :
    ∀ cols hdr i, 2 ≤ i → (∀ k v, pyLookup k cols = some v → ColP k v) →
      ∀ k v, pyLookup k (buildColsAux plan cols hdr i).1 = some v → ColP k v := by
  induction plan with
  | nil =>
    intro cols hdr i _ hc k v h
    exact hc k v (by simpa [buildColsAux] using h)
  | cons e rest ih =>
    intro cols hdr i hi hc
    obtain ⟨k0, v0⟩ := e
    unfold buildColsAux
    split_ifs with hk
    · exact ih cols hdr i hi hc
    · refine ih _ _ _ (by omega) ?_
      intro k v h
      rw [pyLookup_dictInsert] at h
      split_ifs at h with he
      · injection h with h2
        right; right; omega
      · exact hc k v h

lemma buildCols_lookup (plan : List (String × Val)) :
    ∀ k v, pyLookup k (buildCols plan).1 = some v → ColP k v := by
  refine buildColsAux_lookup plan _ _ _ (le_refl 2) ?_
  intro k v h
  simp only [pyLookup] at h
  split_ifs at h with ha hb
  · injection h with h2
    exact Or.inl ⟨ha.symm, h2.symm⟩
  · injection h with h2
    exact Or.inr (Or.inl ⟨hb.symm, h2.symm⟩)

lemma fillKeys_low (cols : List (String × Nat)) (plan : List (String × Val)) :
    ∀ row row', fillKeys cols plan row = .ok row' →
      (∀ k v, pyLookup k cols = some v → ColP k v) →
      (∀ v, ("Rate", v) ∉ plan) →
      row'[0]? = row[0]? ∧ row'[1]? = row[1]? := by
  induction plan with
  | nil =>
    intro row row' h _ _
    injection h with h2
    subst h2
    exact ⟨rfl, rfl⟩
  | cons e rest ih =>
    intro row row' h hc hr
    obtain ⟨k, v⟩ := e
    unfold fillKeys at h
    split_ifs at h with hk
    · exact ih row row' h hc (fun v2 hm => hr v2 (List.mem_cons_of_mem _ hm))
    · cases hl : pyLookup k cols with
      | none => rw [hl] at h; exact absurd h (by simp)
      | some i =>
        rw [hl] at h
        have hcp := hc k i hl
        have hi0 : i ≠ 0 := by
          rcases hcp with ⟨hn, _⟩ | ⟨_, hn⟩ | hge
          · exact absurd hn hk
          · omega
          · omega
        have hi1 : i ≠ 1 := by
          rcases hcp with ⟨hn, _⟩ | ⟨hn, _⟩ | hge
          · exact absurd hn hk
          · exact absurd (hn ▸ List.mem_cons_self (k, v) rest) (hr v)
          · omega
        have hrec := ih _ row' h hc (fun v2 hm => hr v2 (List.mem_cons_of_mem _ hm))
        rw [hrec.1, hrec.2]
        exact ⟨List.getElem?_set_ne hi0, List.getElem?_set_ne hi1⟩

lemma digitVal_digitChar (n : Nat) (h : n < 10) : digitVal (digitChar n) = some n := by
  interval_cases n <;> decide

lemma isDigitChar_digitChar (n : Nat) (h : n < 10) :
    isDigitChar (digitChar n) = true := by
  simp [isDigitChar, digitVal_digitChar n h]

lemma getD_digitVal_le (c : Char) : (digitVal c).getD 0 ≤ 9 := by
  unfold digitVal
  split_ifs with h
  · simp; omega
  · simp

lemma spanDigits_pad2_slash (n : Nat) (rest : List Char) :
    spanDigits (pad2 n ++ '/' :: rest) = (pad2 n, '/' :: rest) := by
  have h1 := isDigitChar_digitChar (n / 10 % 10) (Nat.mod_lt _ (by omega))
  have h2 := isDigitChar_digitChar (n % 10) (Nat.mod_lt _ (by omega))
  have h3 : isDigitChar '/' = false := rfl
  simp [pad2, spanDigits, h1, h2, h3]

lemma natOfDigits_pad2 (n : Nat) (h : n < 100) : natOfDigits (pad2 n) = n := by
  have h1 := digitVal_digitChar (n / 10 % 10) (Nat.mod_lt _ (by omega))
  have h2 := digitVal_digitChar (n % 10) (Nat.mod_lt _ (by omega))
  simp [natOfDigits, pad2, h1, h2]
  omega

lemma natOfDigits_pad4 (n : Nat) (h : n < 10000) : natOfDigits (pad4 n) = n := by
  have h1 := digitVal_digitChar (n / 1000 % 10) (Nat.mod_lt _ (by omega))
  have h2 := digitVal_digitChar (n / 100 % 10) (Nat.mod_lt _ (by omega))
  have h3 := digitVal_digitChar (n / 10 % 10) (Nat.mod_lt _ (by omega))
  have h4 := digitVal_digitChar (n % 10) (Nat.mod_lt _ (by omega))
  simp [natOfDigits, pad4, h1, h2, h3, h4]
  omega

lemma pad4_all_digits (n : Nat) : (pad4 n).all isDigitChar = true := by
  have h1 := isDigitChar_digitChar (n / 1000 % 10) (Nat.mod_lt _ (by omega))
  have h2 := isDigitChar_digitChar (n / 100 % 10) (Nat.mod_lt _ (by omega))
  have h3 := isDigitChar_digitChar (n / 10 % 10) (Nat.mod_lt _ (by omega))
  have h4 := isDigitChar_digitChar (n % 10) (Nat.mod_lt _ (by omega))
  simp [pad4, h1, h2, h3, h4]

lemma daysInMonth_le (m y : Nat) : daysInMonth m y ≤ 31 := by
  unfold daysInMonth
  split_ifs <;> omega

lemma parse_format_roundtrip (d : SimpleDate) (h : ValidDate d) :
    parse_date_chars (format_date_chars d) = some d := by
  obtain ⟨h1, h2, h3, h4, h5⟩ := h
  have hm : d.month < 100 := by omega
  have hd31 := daysInMonth_le d.month d.year
  have hd : d.day < 100 := by omega
  have hy : d.year < 10000 := by omega
  have e1 : natOfDigits (pad2 d.month) = d.month := natOfDigits_pad2 _ hm
  have e2 : natOfDigits (pad2 d.day) = d.day := natOfDigits_pad2 _ hd
  have e3 : natOfDigits (pad4 d.year) = d.year := natOfDigits_pad4 _ hy
  have l1 : (pad2 d.month).length = 2 := rfl
  have l2 : (pad2 d.day).length = 2 := rfl
  have l3 : (pad4 d.year).length = 4 := rfl
  have la : (pad4 d.year).all isDigitChar = true := pad4_all_digits d.year
  simp [parse_date_chars, format_date_chars, spanDigits_pad2_slash, e1, e2, e3,
    l1, l2, l3, la, h1, h2, h3, h4]

lemma parse_date_chars_valid (cs : List Char) (d : SimpleDate)
    (h : parse_date_chars cs = some d) : ValidDate d := by
  unfold parse_date_chars at h
  split at h
  case h_2 => cases h
  case h_1 r1 heq1 =>
    split at h
    case h_2 => cases h
    case h_1 r2 heq2 =>
      split_ifs at h with hg1 hg2
      obtain ⟨g1, g2, g3, g4, g5, g6⟩ := hg1
      obtain ⟨g7, g8, g9, g10⟩ := hg2
      injection h with h2
      subst h2
      have hy : natOfDigits r2 ≤ 9999 := by
        rcases r2 with _ | ⟨c1, _ | ⟨c2, _ | ⟨c3, _ | ⟨c4, _ | ⟨c5, r⟩⟩⟩⟩⟩ <;>
          simp_all [natOfDigits]
        have b1 := getD_digitVal_le c1
        have b2 := getD_digitVal_le c2
        have b3 := getD_digitVal_le c3
        have b4 := getD_digitVal_le c4
        omega
      exact ⟨g7, g8, g9, g10, hy⟩

lemma reachable_roles (p : People) (h : Reachable p) :
    (∀ q, p.insured = some q → q.type = 1) ∧
    (∀ q, p.spouse = some q → q.type = 2) ∧
    (∀ q, q ∈ p.children.getD [] → q.type = 3) := by
  induction h with
  | base => simp [emptyPeople]
  | step p d q hr hadd ih =>
    obtain ⟨ih1, ih2, ih3⟩ := ih
    rcases d with _ | ⟨flag, _ | ⟨name, _ | ⟨dob, _ | ⟨x, rest⟩⟩⟩⟩
    · simp [People.add] at hadd
    · simp [People.add] at hadd
    · simp [People.add] at hadd
    · cases hnd : normalize_date dob with
      | none => simp [People.add, hnd] at hadd
      | some nd =>
        simp only [People.add, hnd] at hadd
        split_ifs at hadd with hf1 hf2 hf3
        · injection hadd with h2
          subst h2
          refine ⟨?_, ih2, ih3⟩
          intro r hrr
          injection hrr with h3
          subst h3
          rfl
        · injection hadd with h2
          subst h2
          refine ⟨ih1, ?_, ih3⟩
          intro r hrr
          injection hrr with h3
          subst h3
          rfl
        · injection hadd with h2
          subst h2
          refine ⟨ih1, ih2, ?_⟩
          intro r hrr
          simp only [Option.getD_some] at hrr
          rcases List.mem_append.mp hrr with hm | hm
          · exact ih3 r hm
          · simp at hm
            subst hm
            rfl
    · simp [People.add] at hadd

/-! ## Claim theorems -/

/-- C1: on the spec's own two-record example, where the second record's
plan carries the key `OutOfPocketMax` that is absent from the column set
discovered from the first record, `get_plans_csv` does NOT emit every
row: the header and the first row are written (and the unseen key indeed
does not appear in the header), but emission of the second row aborts
with the uncaught `KeyError` re-raised by the `except` handler's own
`cols[key]` evaluation, so the run does not finish. -/
theorem flattener_unseen_key_aborts_run :
    get_plans_csv
        [⟨[("Name", Val.str "A"), ("Deductible", Val.num 500)], Val.num 10⟩,
         ⟨[("Name", Val.str "B"), ("Deductible", Val.num 600),
           ("OutOfPocketMax", Val.num 1000)], Val.num 20⟩] =
      ⟨some ["Name", "Rate", "Deductible"],
       [[some (Val.str "A"), some (Val.num 10), some (Val.num 500)]],
       some "KeyError: OutOfPocketMax"⟩ := rfl

/-- C2: the body `PlansInitialData = 42;` contains the assignment (the
regex matches at offset 0 with captured JSON payload `42`), yet
`get_plans` raises the extraction error: `re.MULTILINE` (value 8) is
passed as the `pos` argument of `Pattern.search`, so the scan starts at
offset 8 and never sees a match that starts in the first 8 characters.
This refutes the claim that the error is raised exactly when the pattern
is absent from the body. -/
theorem plans_regex_offset_bug :
    matchAt ("PlansInitialData = 42;".toList) 0 = some ['4', '2'] ∧
    get_plans "PlansInitialData = 42;" =
      .error "Could not find PlansInitialData in output." :=
  ⟨rfl, rfl⟩

/-- C3: when the locality response's `zipCodes` match list is empty,
`set_locality` fails with an error (the Python subscript `[0]` raises
`IndexError`, the data-shape failure for an empty match list) instead of
returning a locality triple. -/
theorem set_locality_empty_matches_fails (resp : LocalityResp)
    (triage : String → String → String → TriageResp) (h : resp.zipCodes = []) :
    set_locality resp triage = .error "IndexError: list index out of range" := by
  simp [set_locality, h]

/-- Witness for C3 at the empty response. -/
theorem set_locality_empty_matches_fails_witness :
    set_locality ⟨[]⟩ (fun _ _ _ => ⟨true⟩) =
      .error "IndexError: list index out of range" :=
  set_locality_empty_matches_fails ⟨[]⟩ (fun _ _ _ => ⟨true⟩) rfl

/-- C4 counterexample: for the record whose plan has no `Name` key
(plan `Deductible = 700`, rate `15`), the emitted row has the Rate in
the FIRST column and the second column empty, contradicting the claim
that the Rate still occupies the second column with the first left
empty. -/
theorem missing_name_rate_first_column_cex :
    get_plans_csv [⟨[("Deductible", Val.num 700)], Val.num 15⟩] =
      ⟨some ["Name", "Rate", "Deductible"],
       [[some (Val.num 15), none, some (Val.num 700)]], none⟩ ∧
    ¬ (([some (Val.num 15), none, some (Val.num 700)] :
        List (Option Val))[1]? = some (some (Val.num 15))) :=
  ⟨rfl, by decide⟩

/-- C4 (amended): for any record emitted against the column set
discovered from the first record, when the plan has a `Name` key its
value lands in column 0 and the Rate in column 1; when the plan has no
`Name` key the Rate lands in column 0 and column 1 stays empty (under
the data-model assumption that `Rate` is not itself a plan key). -/
theorem row_emission_column_placement (first res : PlanResult)
    (row : List (Option Val))
    (hrate : pyLookup "Rate" res.Plan = none)
    (hrow : emitRow (buildCols first.Plan).1 res = .ok row) :
    (∀ v, pyLookup "Name" res.Plan = some v →
       row[0]? = some (some v) ∧ row[1]? = some (some res.Rate)) ∧
    (pyLookup "Name" res.Plan = none →
       row[0]? = some (some res.Rate) ∧ row[1]? = some none) := by
  have hlen := buildCols_length first.Plan
  have hc := buildCols_lookup first.Plan
  have hnr := pyLookup_none_not_mem _ _ hrate
  constructor
  · intro v hv
    unfold emitRow at hrow
    rw [hv] at hrow
    have hlow := fillKeys_low _ _ _ _ hrow hc hnr
    rw [hlow.1, hlow.2]
    constructor
    · rw [List.getElem?_set_ne (by omega : (1 : Nat) ≠ 0),
        List.getElem?_set_self (by simp; omega)]
    · rw [List.getElem?_set_self (by simp; omega)]
  · intro hv
    unfold emitRow at hrow
    rw [hv] at hrow
    have hlow := fillKeys_low _ _ _ _ hrow hc hnr
    rw [hlow.1, hlow.2]
    constructor
    · rw [List.getElem?_set_self (by simp; omega)]
    · rw [List.getElem?_set_ne (by omega : (0 : Nat) ≠ 1),
        List.getElem?_replicate_of_lt (by omega)]

/-- Witness for C4 on the record with plan `Name = "A"`,
`Deductible = 500` and rate `10`. -/
theorem row_emission_column_placement_witness :
    ([some (Val.str "A"), some (Val.num 10), some (Val.num 500)] :
      List (Option Val))[0]? = some (some (Val.str "A")) ∧
    ([some (Val.str "A"), some (Val.num 10), some (Val.num 500)] :
      List (Option Val))[1]? = some (some (Val.num 10)) := by
  have h := row_emission_column_placement
    ⟨[("Name", Val.str "A"), ("Deductible", Val.num 500)], Val.num 10⟩
    ⟨[("Name", Val.str "A"), ("Deductible", Val.num 500)], Val.num 10⟩
    [some (Val.str "A"), some (Val.num 10), some (Val.num 500)] rfl rfl
  exact h.1 (Val.str "A") rfl

/-- C5: a household with neither insured nor spouse and with a children
list carries `OnlyChildCoverage = true` in the payload, and a household
with an insured person never has the flag set. -/
theorem only_child_coverage_flag (p : People) :
    (∀ l, p.insured = none → p.spouse = none → p.children = some l →
        People.covered p =
          .ok { OnlyChildCoverage := some true, CoveredPersons := l }) ∧
    (∀ q r, p.insured = some q → People.covered p = .ok r →
        r.OnlyChildCoverage = none) := by
  constructor
  · intro l h1 h2 h3
    simp [People.covered, h1, h2, h3]
  · intro q r h1 h2
    have h3 := (covered_ok_payload p r h2).2
    rw [h3, h1]
    simp

/-- Witness for C5: a children-only household gets the flag. -/
theorem only_child_coverage_flag_witness :
    People.covered
        { insured := none, spouse := none,
          children := some [⟨"Jo", "03/04/2015", none, 3⟩] } =
      .ok { OnlyChildCoverage := some true,
            CoveredPersons := [⟨"Jo", "03/04/2015", none, 3⟩] } :=
  (only_child_coverage_flag _).1 _ rfl rfl rfl

/-- C6: a household with a spouse but no insured person fails
validation in `People.covered` with the corresponding error. -/
theorem spouse_without_insured_fails (p : People) (s : Person)
    (hi : p.insured = none) (hs : p.spouse = some s) :
    People.covered p = .error "Must have insured set when spouse is set." := by
  simp [People.covered, hi, hs]

/-- Witness for C6. -/
theorem spouse_without_insured_fails_witness :
    People.covered
        { insured := none, spouse := some ⟨"Pat", "02/01/2000", none, 2⟩,
          children := none } =
      .error "Must have insured set when spouse is set." :=
  spouse_without_insured_fails _ ⟨"Pat", "02/01/2000", none, 2⟩ rfl rfl

/-- C7: the covered-persons list is the insured (if present), then the
spouse (if present), then the children; and `add` with `--child` appends
the new child at the end of the children list, preserving the other
roles, so children appear in the order they were added. -/
theorem covered_persons_order (p : People) :
    (∀ r, People.covered p = .ok r →
        r.CoveredPersons =
          p.insured.toList ++ p.spouse.toList ++ p.children.getD []) ∧
    (∀ n dob nd q, normalize_date dob = some nd →
        People.add p ["--child", n, dob] = .ok q →
        q.children = some (p.children.getD [] ++ [⟨n, nd, none, 3⟩]) ∧
        q.insured = p.insured ∧ q.spouse = p.spouse) := by
  constructor
  · intro r h
    exact (covered_ok_payload p r h).1
  · intro n dob nd q hnd hadd
    simp [People.add, hnd] at hadd
    subst hadd
    exact ⟨rfl, rfl, rfl⟩

/-- Witness for C7 on a full household. -/
theorem covered_persons_order_witness :
    ({ OnlyChildCoverage := none,
       CoveredPersons := [⟨"Jane", "01/02/1985", none, 1⟩,
         ⟨"Sam", "02/01/1984", none, 2⟩, ⟨"Jo", "03/04/2015", none, 3⟩] } :
      CoveredPayload).CoveredPersons =
      ({ insured := some ⟨"Jane", "01/02/1985", none, 1⟩,
         spouse := some ⟨"Sam", "02/01/1984", none, 2⟩,
         children := some [⟨"Jo", "03/04/2015", none, 3⟩] } :
        People).insured.toList ++
      ({ insured := some ⟨"Jane", "01/02/1985", none, 1⟩,
         spouse := some ⟨"Sam", "02/01/1984", none, 2⟩,
         children := some [⟨"Jo", "03/04/2015", none, 3⟩] } :
        People).spouse.toList ++
      ({ insured := some ⟨"Jane", "01/02/1985", none, 1⟩,
         spouse := some ⟨"Sam", "02/01/1984", none, 2⟩,
         children := some [⟨"Jo", "03/04/2015", none, 3⟩] } :
        People).children.getD [] :=
  (covered_persons_order _).1 _ rfl

/-- C8: normalizing a string already in the canonical `MM/DD/YYYY` form
returns the same string, and `normalize_date` is idempotent on every
parseable input. -/
theorem normalize_date_idempotent :
    (∀ d : SimpleDate, ValidDate d →
        normalize_date (String.mk (format_date_chars d)) =
          some (String.mk (format_date_chars d))) ∧
    (∀ s t : String, normalize_date s = some t → normalize_date t = some t) := by
  have key : ∀ d : SimpleDate, ValidDate d →
      normalize_date (String.mk (format_date_chars d)) =
        some (String.mk (format_date_chars d)) := by
    intro d hd
    unfold normalize_date
    have ht : (String.mk (format_date_chars d)).toList = format_date_chars d := rfl
    rw [ht, parse_format_roundtrip d hd]
    rfl
  refine ⟨key, ?_⟩
  intro s t h
  unfold normalize_date at h
  cases hp : parse_date_chars s.toList with
  | none => rw [hp] at h; cases h
  | some d =>
    rw [hp] at h
    simp only [Option.map_some'] at h
    injection h with h2
    rw [← h2]
    exact key d (parse_date_chars_valid _ _ hp)

/-- Witness for C8: `1/2/1985` normalizes to `01/02/1985`, which
renormalizes to itself. -/
theorem normalize_date_idempotent_witness :
    normalize_date "1/2/1985" = some "01/02/1985" ∧
    normalize_date "01/02/1985" = some "01/02/1985" :=
  ⟨rfl, normalize_date_idempotent.2 "1/2/1985" "01/02/1985" rfl⟩

/-- C9: in every household state reachable by `add` calls, the covered
payload holds at most one person of role 1 and at most one of role 2,
and a further `--self` entry succeeds (no error) by overwriting the
insured slot. -/
theorem reachable_single_insured_single_spouse (p : People) (h : Reachable p) :
    (∀ r, People.covered p = .ok r →
        r.CoveredPersons.countP (fun q => q.type == 1) ≤ 1 ∧
        r.CoveredPersons.countP (fun q => q.type == 2) ≤ 1) ∧
    (∀ n dob nd, normalize_date dob = some nd →
        People.add p ["--self", n, dob] =
          .ok { p with insured := some ⟨n, nd, none, 1⟩ }) := by
  obtain ⟨hins, hsp, hch⟩ := reachable_roles p h
  constructor
  · intro r hr
    rw [(covered_ok_payload p r hr).1]
    have cil : p.insured.toList.length ≤ 1 := by cases p.insured <;> simp
    have csl : p.spouse.toList.length ≤ 1 := by cases p.spouse <;> simp
    have c1s : p.spouse.toList.countP (fun q => q.type == 1) = 0 := by
      rw [List.countP_eq_zero]
      intro a ha
      cases hps : p.spouse <;> rw [hps] at ha <;> simp at ha
      subst ha
      simp [hsp _ hps]
    have c1c : (p.children.getD []).countP (fun q => q.type == 1) = 0 := by
      rw [List.countP_eq_zero]
      intro a ha
      simp [hch a ha]
    have c2i : p.insured.toList.countP (fun q => q.type == 2) = 0 := by
      rw [List.countP_eq_zero]
      intro a ha
      cases hpi : p.insured <;> rw [hpi] at ha <;> simp at ha
      subst ha
      simp [hins _ hpi]
    have c2c : (p.children.getD []).countP (fun q => q.type == 2) = 0 := by
      rw [List.countP_eq_zero]
      intro a ha
      simp [hch a ha]
    constructor
    · rw [List.countP_append, List.countP_append, c1s, c1c]
      have := List.countP_le_length (l := p.insured.toList)
        (p := fun q => q.type == 1)
      omega
    · rw [List.countP_append, List.countP_append, c2i, c2c]
      have := List.countP_le_length (l := p.spouse.toList)
        (p := fun q => q.type == 2)
      omega
  · intro n dob nd hnd
    simp [People.add, hnd]

/-- Witness for C9: the state reached by adding `--self` twice holds the
second insured only, and a third `--self` again succeeds by
replacement. -/
theorem reachable_single_insured_single_spouse_witness :
    People.add
        { insured := some ⟨"Bob", "01/02/1985", none, 1⟩, spouse := none,
          children := none } ["--self", "Carol", "1/2/1985"] =
      .ok { insured := some ⟨"Carol", "01/02/1985", none, 1⟩, spouse := none,
            children := none } := by
  have hre : Reachable
      { insured := some ⟨"Bob", "01/02/1985", none, 1⟩,
        spouse := none, children := none } :=
    Reachable.step _ ["--self", "Bob", "1/2/1985"] _
      (Reachable.step _ ["--self", "Alice", "1/2/1985"] _ Reachable.base rfl) rfl
  exact (reachable_single_insured_single_spouse _ hre).2 "Carol" "1/2/1985"
    "01/02/1985" rfl

/-- C10: when the argument loop ends with a pending person entry of
fewer than three tokens, the final flush drops it silently: the parsed
household is exactly the loop's household and no error is raised. -/
theorem trailing_short_person_discarded (args : List String) (ppl : People)
    (buf : List String) (h : mainLoop args = .ok ⟨ppl, some buf⟩)
    (hlen : buf.length < 3) : parse_people args = .ok ppl := by
  unfold parse_people
  rw [h]
  have h3 : ¬(buf.length = 3) := by omega
  simp [h3]

/-- Witness for C10: a trailing `--self Jane` (two tokens) is dropped
and parsing yields the empty household without error. -/
theorem trailing_short_person_discarded_witness :
    parse_people ["--self", "Jane"] = .ok emptyPeople :=
  trailing_short_person_discarded ["--self", "Jane"] emptyPeople
    ["--self", "Jane"] rfl (by decide)
